import Mathlib

set_option maxRecDepth 8000

/- Shallow embedding of the FINANCE_PROJECT pipeline: the categorization
engine (src/finance/categorize.py), the record cleaner
(src/finance/cleaning.py), the bank normalizer (src/finance/io_normalize.py)
and the presentation-mode number masking (src/finance/report.py).

Conventions of the embedding: pandas DataFrames become lists of records,
decimal amounts become rationals, nullable cells become Option values, and
Python string case folding is modelled on its ASCII fragment (the strings
appearing in the rules and claims are ASCII). -/

-- ## Data model: the unified transaction schema (io_normalize.UNIFIED_COLS)

structure UnifiedTx where
  date : Option String
  amount : Option ℚ
  currency : String
  description : String
  merchant : String
  iban : String
  balance : Option ℚ
  type : String
  bank : String
deriving DecidableEq, Repr

/-- A transaction together with the category column added by
`categorize_transactions`. -/
structure CatTx where
  tx : UnifiedTx
  category : String
deriving DecidableEq, Repr

-- ## Categorization engine (src/finance/categorize.py)

/-- One entry of the income.employers list of the config. -/
structure EmployerGroup where
  keywords : List String
  ibans : List String
deriving DecidableEq, Repr

/-- The rule configuration consumed by `categorize_transactions`; fields
mirror the keys the code reads from the YAML dict (with its defaults already
resolved, as `config.get` does). -/
structure Config where
  unknown_category : String
  investments_keywords : List String
  investments_ibans : List String
  employers : List EmployerGroup
  students_multiples_of : ℚ
  students_ibans : List String
  cash_students_keyword : String
  categories : List (String × List String)
deriving DecidableEq, Repr

/-- Python str.upper on the ASCII fragment, written over the character list
so that it evaluates inside the kernel. -/
def strUpper (s : String) : String := ⟨s.data.map Char.toUpper⟩

/-- Python str.lower on the ASCII fragment. -/
def strLower (s : String) : String := ⟨s.data.map Char.toLower⟩

/-- Python str.strip: drop whitespace from both ends. -/
def strTrim (s : String) : String :=
  ⟨((s.data.dropWhile Char.isWhitespace).reverse.dropWhile
      Char.isWhitespace).reverse⟩

/-- Does the keyword list `k` occur at the head of `s`? -/
def matchesAt (k : List Char) (s : List Char) : Bool :=
  match k, s with
  | [], _ => true
  | _ :: _, [] => false
  | a :: k1, b :: s1 => a == b && matchesAt k1 s1

/-- Python str.startswith. -/
def strStarts (s pre : String) : Bool := matchesAt pre.data s.data

/-- Does the keyword list `k` occur contiguously in `s`? (Python `k in t`.) -/
def hasSub (k : List Char) (s : List Char) : Bool :=
  matchesAt k s ||
    match s with
    | [] => false
    | _ :: s1 => hasSub k s1

/-- Case-insensitive substring test: `k.upper() in text.upper()`. -/
def containsCI (text k : String) : Bool :=
  hasSub (strUpper k).data (strUpper text).data

/-- categorize._contains_any: any keyword occurs in the uppercased text. -/
def contains_any (text : String) (keywords : List String) : Bool :=
  keywords.any (fun k => containsCI text k)

/-- Pandas `series > 0` on a nullable amount: null compares false. -/
def amtPos (a : Option ℚ) : Bool :=
  match a with
  | some q => decide (0 < q)
  | none => false

/-- Pandas `series < 0` on a nullable amount: null compares false. -/
def amtNeg (a : Option ℚ) : Bool :=
  match a with
  | some q => decide (q < 0)
  | none => false

def amtVal (a : Option ℚ) : ℚ := a.getD 0

/-- The Python `%` on rationals with the sign convention of the divisor:
`a % m = a - m * floor(a / m)`. -/
def pyMod (a m : ℚ) : ℚ := a - m * ((Int.floor (a / m) : ℤ) : ℚ)

/-- Pandas `(series % mult) == 0` on a nullable amount: null gives false. -/
def modZero (a : Option ℚ) (m : ℚ) : Bool :=
  match a with
  | some q => pyMod q m == 0
  | none => false

/-- The investments rule: merchant contains a keyword or iban is in the set,
regardless of amount sign (categorize.py lines 12-18). -/
def investMask (cfg : Config) (t : UnifiedTx) : Bool :=
  contains_any t.merchant cfg.investments_keywords ||
    cfg.investments_ibans.contains t.iban

def investStep (cfg : Config) (t : UnifiedTx) (c : String) : String :=
  if investMask cfg t then "Investment" else c

/-- One income.employers group: `mask = amount > 0`, then `mask &= keyword
match` only when the keyword list is truthy, then `mask |= iban match and
amount > 0` only when the iban set is truthy (categorize.py lines 21-29). -/
def empMask (g : EmployerGroup) (t : UnifiedTx) : Bool :=
  let base := amtPos t.amount
  let m1 := if g.keywords.isEmpty then base
            else base && contains_any t.merchant g.keywords
  if g.ibans.isEmpty then m1
  else m1 || (g.ibans.contains t.iban && amtPos t.amount)

def employersStep (groups : List EmployerGroup) (t : UnifiedTx) (c : String) : String :=
  groups.foldl (fun acc g => if empMask g t then "Income:Employer" else acc) c

/-- The income.students rule (categorize.py lines 31-38). -/
def studentsMask (cfg : Config) (t : UnifiedTx) : Bool :=
  let m := amtPos t.amount && modZero t.amount cfg.students_multiples_of
  if cfg.students_ibans.isEmpty then m
  else m || (cfg.students_ibans.contains t.iban && amtPos t.amount)

def studentsStep (cfg : Config) (t : UnifiedTx) (c : String) : String :=
  if studentsMask cfg t then "Income:Students" else c

/-- The income.cash_students rule: only applied when the keyword is truthy
(non-empty); positive amount and description contains the keyword
(categorize.py lines 40-46). -/
def cashMask (cfg : Config) (t : UnifiedTx) : Bool :=
  amtPos t.amount && containsCI t.description cfg.cash_students_keyword

def cashStep (cfg : Config) (t : UnifiedTx) (c : String) : String :=
  if cfg.cash_students_keyword.data.isEmpty then c
  else if cashMask cfg t then "Income:Students:Cash" else c

/-- One entry of the categories mapping: negative amount and merchant or
description contains a keyword (categorize.py lines 49-54). -/
def catEntryMask (t : UnifiedTx) (kws : List String) : Bool :=
  amtNeg t.amount &&
    (contains_any t.merchant kws || contains_any t.description kws)

def categoriesStep (cats : List (String × List String)) (t : UnifiedTx) (c : String) : String :=
  cats.foldl (fun acc e => if catEntryMask t e.2 then e.1 else acc) c

/-- The full per-record cascade of categorize_transactions: default label,
then investments, employers, students, cash students, expense categories,
each overwriting the previous value on match. -/
def categorizeRecord (cfg : Config) (t : UnifiedTx) : String :=
  categoriesStep cfg.categories t
    (cashStep cfg t
      (studentsStep cfg t
        (employersStep cfg.employers t
          (investStep cfg t cfg.unknown_category))))

def categorize_transactions (cfg : Config) (txs : List UnifiedTx) : List CatTx :=
  txs.map (fun t => ⟨t, categorizeRecord cfg t⟩)

-- ## Derived aggregate: compute_income_sources (categorize.py lines 58-67)

/-- The 1e-9 epsilon of compute_income_sources. -/
def incomeEps : ℚ := 1 / 1000000000

/-- compute_income_sources: an insertion-ordered dict, modelled as an
association list. `inc` keeps the positive-amount rows; the three fixed
buckets sum by exact category; Other sums the positive rows whose category
does not start with the prefix Income, and is added only when its absolute
value exceeds the epsilon. -/
def compute_income_sources (txs : List CatTx) : List (String × ℚ) :=
  let inc := txs.filter (fun t => amtPos t.tx.amount)
  let sumCat (c : String) : ℚ :=
    ((inc.filter (fun t => t.category == c)).map (fun t => amtVal t.tx.amount)).sum
  let other : ℚ :=
    ((inc.filter (fun t => !(strStarts t.category "Income"))).map
      (fun t => amtVal t.tx.amount)).sum
  [("Employer", sumCat "Income:Employer"),
   ("Students", sumCat "Income:Students"),
   ("Students:Cash", sumCat "Income:Students:Cash")] ++
    (if incomeEps < |other| then [("Other", other)] else [])

-- ## Record cleaner (src/finance/cleaning.py)

/-- The dedup key of clean_transactions:
`(date, abs(float(amount)), merchant.strip().lower(), bank)`. -/
def cleanKey (t : UnifiedTx) : Option String × ℚ × String × String :=
  (t.date, |amtVal t.amount|, strLower (strTrim t.merchant), t.bank)

/-- A row survives the null filter when both amount and date are non-null. -/
def rowKept (t : UnifiedTx) : Bool := t.amount.isSome && t.date.isSome

/-- `~key.duplicated()`: walk the rows keeping a set of keys already seen and
drop any row whose key was seen before. -/
def dedupeFirst : List UnifiedTx → List (Option String × ℚ × String × String) → List UnifiedTx
  | [], _ => []
  | t :: ts, seen =>
    if seen.contains (cleanKey t) then dedupeFirst ts seen
    else t :: dedupeFirst ts (cleanKey t :: seen)

/-- clean_transactions: filter out null amount/date rows, then keep only the
first occurrence of each dedup key. (The final fillna/astype pass over
description and merchant is the identity on the typed model, where both
fields are already strings.) -/
def clean_transactions (txs : List UnifiedTx) : List UnifiedTx :=
  dedupeFirst (txs.filter rowKept) []

/-- The reading of deduplication in the spec: the first record with a given key
survives and every later record with an equal key is removed. Stated as an
independent recursion to compare with the implementation-shaped
`dedupeFirst`. -/
def keepFirsts : List UnifiedTx → List UnifiedTx
  | [] => []
  | t :: ts =>
    t :: keepFirsts (ts.filter (fun u => !(cleanKey u == cleanKey t)))
termination_by l => l.length
decreasing_by
  simp only [List.length_cons]
  exact Nat.lt_succ_of_le (List.length_filter_le _ _)

-- ## Bank normalizer (src/finance/io_normalize.py)

/-- A raw tabular chunk: the rows of one physical input file. Cells are the
untyped CSV strings; a missing value is `none`. Each row lists its cells in
the order of `cols`. -/
structure RawChunk where
  cols : List String
  rows : List (List (Option String))
deriving DecidableEq, Repr

/-- The index of the last column whose lowercased name equals `name`,
mirroring the later-wins `{c.lower(): c for c in part.columns}` dict of
`_score`. -/
def lastLowerIdx (cols : List String) (name : String) : Option Nat :=
  (cols.enum).foldl
    (fun acc p => if strLower p.2 == name then some p.1 else acc) none

/-- The values of the column at index `i`. -/
def colVals (ch : RawChunk) (i : Nat) : List (Option String) :=
  ch.rows.map (fun r => (r.get? i).join)

/-- `part[col].notna().sum()`: the number of non-null cells. -/
def notnaCount (vals : List (Option String)) : Nat :=
  (vals.filter (fun v => v.isSome)).length

/-- For one alias group, the non-null count of the first alias present in
the columns of the chunk; zero when none is (the inner loop of the score, with its
break). -/
def aliasGroupCount (ch : RawChunk) : List String → Nat
  | [] => 0
  | a :: rest =>
    match lastLowerIdx ch.cols a with
    | some i => notnaCount (colVals ch i)
    | none => aliasGroupCount ch rest

/-- io_normalize._score: total the per-group counts. -/
def score (ch : RawChunk) (aliasGroups : List (List String)) : Nat :=
  aliasGroups.foldl (fun tot g => tot + aliasGroupCount ch g) 0

def revolutAliases : List (List String) :=
  [["completed date", "started date"], ["type"], ["description"], ["amount"],
   ["currency"]]

def swedbankAliases : List (List String) :=
  [["data", "date"], ["suma"], ["valiuta", "currency"], ["d/k", "dk"],
   ["paaiškinimai", "paaiskinimai"]]

/-- io_normalize._decide_bank: revolut wins ties (`rev_score >= swe_score`). -/
def decide_bank (ch : RawChunk) : String :=
  if score ch swedbankAliases ≤ score ch revolutAliases then "revolut"
  else "swedbank"

/-- A partially-normalized row as handed to `_ensure_schema`: the `df_norm`
columns each mapper builds. The amount slot distinguishes a missing value,
a raw CSV string (Revolut) and an already-parsed number (Swedbank). -/
inductive AmtCell where
  | na
  | raw (s : String)
  | num (q : ℚ)
deriving DecidableEq, Repr

structure PreTx where
  date : Option String
  amount : AmtCell
  currency : Option String
  description : Option String
  merchant : Option String
  iban : Option String
  balance : Option String
  type : Option String
deriving DecidableEq, Repr

/-- Count of leading characters satisfying `p`. -/
def countWhile (p : Char → Bool) : List Char → Nat
  | [] => 0
  | c :: r => if p c then countWhile p r + 1 else 0

def isDigitChar (c : Char) : Bool := c.isDigit

/-- `pd.to_numeric(..., errors="coerce")` on a decimal string: optional
sign, then digits with an optional fractional part (the grammar of the plain
decimals these CSVs carry); anything else coerces to null. Leading and
trailing whitespace is tolerated as pandas does. -/
def parseRat (s : String) : Option ℚ :=
  let cs := (strTrim s).data
  let (sign, cs1) : ℤ × List Char :=
    match cs with
    | '-' :: r => (-1, r)
    | '+' :: r => (1, r)
    | r => (1, r)
  let di := countWhile isDigitChar cs1
  let intDigits := cs1.take di
  let rest := cs1.drop di
  let toNat (l : List Char) : Nat := l.foldl (fun a c => a * 10 + c.toNat - 48) 0
  match rest with
  | [] =>
    if di == 0 then none
    else some (mkRat (sign * (toNat intDigits : ℤ)) 1)
  | '.' :: fr =>
    let df := countWhile isDigitChar fr
    if fr.drop df ≠ [] then none
    else if di == 0 && df == 0 then none
    else
      some (mkRat (sign * ((toNat intDigits * 10 ^ df + toNat (fr.take df) : ℕ) : ℤ))
        (10 ^ df))
  | _ => none

/-- `pd.to_datetime(..., errors="coerce")` restricted to the ISO-like dates
these exports carry: `YYYY-MM-DD`, optionally followed by a time of day;
anything else coerces to null. The parsed date is kept as its normalized
string. -/
def parseDate (s : String) : Option String :=
  let cs := (strTrim s).data
  let d4 := cs.take 4
  match cs.drop 4 with
  | '-' :: r1 =>
    let m2 := r1.take 2
    match r1.drop 2 with
    | '-' :: r2 =>
      let d2 := r2.take 2
      let restOk : Bool :=
        match r2.drop 2 with
        | [] => true
        | ' ' :: t =>
          t.length == 8 && (t.all (fun c => c.isDigit || c == ':'))
        | _ => false
      if (d4.all isDigitChar && d4.length == 4) &&
          (m2.all isDigitChar && m2.length == 2) &&
          (d2.all isDigitChar && d2.length == 2) && restOk then
        some ⟨d4 ++ ['-'] ++ m2 ++ ['-'] ++ d2⟩
      else none
    | _ => none
  | _ => none

/-- `astype(str)` on a nullable cell: pandas renders a missing value as the
string nan. -/
def strOfCell : Option String → String
  | some s => s
  | none => "nan"

/-- `pd.to_numeric` of the amount slot: already-numeric values pass through,
raw strings are parsed, missing stays missing. -/
def toNumericAmt : AmtCell → Option ℚ
  | .na => none
  | .raw s => parseRat s
  | .num q => some q

/-- io_normalize._ensure_schema, row-wise: coerce every field and emit the
nine unified columns. The bank tag is set from the calling mapper. -/
def ensure_schema (bank : String) (p : PreTx) : UnifiedTx :=
  { date := p.date.bind parseDate
    amount := toNumericAmt p.amount
    currency := strOfCell p.currency
    description := strOfCell p.description
    merchant := strOfCell p.merchant
    iban := strOfCell p.iban
    balance := p.balance.bind parseRat
    type := strOfCell p.type
    bank := bank }

/-- Cell of the column called `name`, if that column exists: `some cell`
when the column is present (the cell itself may be null), `none` when the
chunk has no such column (pandas `df.get`). The first matching label is
used; the frames these mappers build have unique labels. -/
def cellAt (cols : List String) (r : List (Option String)) (name : String) :
    Option (Option String) :=
  (cols.findIdx? (fun c => c == name)).map (fun i => (r.get? i).join)

/-- The lowercase-and-strip column rename of _normalize_revolut. -/
def revCols (ch : RawChunk) : List String :=
  ch.cols.map (fun c => strTrim (strLower c))

/-- One row of the df_norm frame of _normalize_revolut: prefer completed date over
started date, merchant mirrors description, no per-row iban. -/
def revPreRow (cols : List String) (r : List (Option String)) : PreTx :=
  let get := cellAt cols r
  let dateCell : Option String :=
    match get "completed date" with
    | some c => c
    | none => (get "started date").join
  let desc : Option String :=
    match get "description" with
    | some c => c
    | none => some ""
  { date := dateCell
    amount :=
      match get "amount" with
      | some (some s) => .raw s
      | _ => .na
    currency :=
      match get "currency" with
      | some c => c
      | none => some "EUR"
    description := desc
    merchant := desc
    iban := some ""
    balance := (get "balance").join
    type :=
      match get "type" with
      | some c => c
      | none => some "" }

def normalize_revolut (ch : RawChunk) : List UnifiedTx :=
  ch.rows.map (fun r => ensure_schema "Revolut" (revPreRow (revCols ch) r))

/-- The Swedbank column rename map: recognized Lithuanian headers map to the
unified names, everything else keeps its original label. -/
def swedRename (c : String) : String :=
  let lc := strTrim (strLower c)
  if lc == "data" then "date"
  else if lc == "suma" then "amount"
  else if lc == "valiuta" then "currency"
  else if lc == "paaiškinimai" || lc == "paaiskinimai" then "description"
  else if lc == "gavėjas" || lc == "gavejas" then "merchant"
  else if lc == "d/k" || lc == "dk" then "dk"
  else if lc == "likutis" || lc == "balance" then "balance"
  else if lc == "sąskaitos nr." || lc == "saskaitos nr." ||
      lc == "account number" then "iban"
  else c

def swedCols (ch : RawChunk) : List String := ch.cols.map swedRename

/-- Swedbank amount parsing: strip the no-break space thousands separator,
turn the comma decimal separator into a dot, then coerce to a number. -/
def swedAmount (s : String) : Option ℚ :=
  parseRat ⟨(s.data.filter (fun c => !(c == '\u00A0'))).map
    (fun c => if c == ',' then '.' else c)⟩

/-- The D/K sign multiplier: uppercase and strip the marker, map the
debit-like markers to -1 and the credit-like markers to +1; everything
unmapped (the `.fillna(1)`) multiplies by +1. A null marker cell becomes
the string nan under astype(str) and is likewise unmapped. -/
def dkMult (cell : Option String) : ℚ :=
  let m := strTrim (strUpper (strOfCell cell))
  if m == "D" || m == "DEBETAS" || m == "DEBIT" then -1
  else if m == "K" || m == "KREDITAS" || m == "CREDIT" then 1
  else 1

/-- One row of the df_norm frame of _normalize_swedbank: parse the amount, apply the
D/K sign only when both columns exist, derive the crude credit/debit type
from the signed amount. -/
def swedPreRow (cols : List String) (r : List (Option String)) : PreTx :=
  let get := cellAt cols r
  let rawAmt : Option (Option String) := get "amount"
  let parsed : Option ℚ :=
    match rawAmt with
    | none => none
    | some c => swedAmount (strOfCell c)
  let amt : Option ℚ :=
    match get "dk", rawAmt with
    | some dcell, some _ => parsed.map (fun q => q * dkMult dcell)
    | _, _ => parsed
  { date := (get "date").join
    amount :=
      match rawAmt, amt with
      | some _, some q => .num q
      | _, _ => .na
    currency :=
      match get "currency" with
      | some c => c
      | none => some "EUR"
    description :=
      match get "description" with
      | some c => c
      | none => some ""
    merchant :=
      match get "merchant" with
      | some c => c
      | none =>
        match get "description" with
        | some c => c
        | none => some ""
    iban :=
      match get "iban" with
      | some c => c
      | none => some ""
    balance := (get "balance").join
    type :=
      match amt with
      | some q => if 0 < q then some "credit" else if q < 0 then some "debit" else none
      | none => none }

def normalize_swedbank (ch : RawChunk) : List UnifiedTx :=
  ch.rows.map (fun r => ensure_schema "Swedbank" (swedPreRow (swedCols ch) r))

/-- Dispatch one chunk to the mapper its detected bank selects. -/
def normalize_bank (ch : RawChunk) : List UnifiedTx :=
  if decide_bank ch == "revolut" then normalize_revolut ch
  else normalize_swedbank ch

/-- io_normalize.normalize_any_bank: detection and mapping run per
originating file (one RawChunk per file), results concatenate. -/
def normalize_any_bank (chunks : List RawChunk) : List UnifiedTx :=
  (chunks.map normalize_bank).flatten

/-- The signed amounts _normalize_swedbank computes for a chunk, before
schema enforcement; used to state the D/K sign facts. -/
def swedSignedAmt (ch : RawChunk) : List (Option ℚ) :=
  ch.rows.map (fun r => toNumericAmt (swedPreRow (swedCols ch) r).amount)

/-- The amounts of a chunk parsed without any sign correction. -/
def swedParsedAmt (ch : RawChunk) : List (Option ℚ) :=
  ch.rows.map (fun r =>
    match cellAt (swedCols ch) r "amount" with
    | none => none
    | some c => swedAmount (strOfCell c))

-- ## Presentation-mode masking (src/finance/report.py, _mask_numeric_strings)

/-- The replacement function: each digit becomes X, every other character
is kept. -/
def maskChar (c : Char) : Char := if c.isDigit then 'X' else c

def isWordChar (c : Char) : Bool := c.isAlphanum || c == '_'

/-- A regex word boundary between two adjacent positions: the word-ness of
the characters on the two sides differs (absent counts as non-word). -/
def isBoundary (prev next : Option Char) : Bool :=
  (match prev with | some c => isWordChar c | none => false) !=
    (match next with | some c => isWordChar c | none => false)

def isDigitComma (c : Char) : Bool := c.isDigit || c == ','

def isSpaceChar (c : Char) : Bool := c.isWhitespace

/-- The trailing alternation of patterns 2 and 4: optional whitespace, then
the euro sign or the word EUR with boundaries on both sides. `lastWord` is
the word-ness of the character preceding this tail. -/
def curTail (lastWord : Bool) (s : List Char) : Option Nat :=
  let k := countWhile isSpaceChar s
  let rest := s.drop k
  let prevWord := if k == 0 then lastWord else false
  match rest with
  | '€' :: _ => some (k + 1)
  | 'E' :: 'U' :: 'R' :: r2 =>
    if prevWord then none
    else if (match r2 with | c :: _ => isWordChar c | [] => false) then none
    else some (k + 3)
  | _ => none

/-- The currency lead-in of patterns 1 and 3: the euro sign or (after a word
boundary) the word EUR, each followed by optional whitespace. Returns the
consumed length. -/
def curLead (prev : Option Char) (s : List Char) : Option Nat :=
  match s with
  | '€' :: r => some (1 + countWhile isSpaceChar r)
  | 'E' :: 'U' :: 'R' :: r =>
    if (match prev with | some c => isWordChar c | none => false) then none
    else some (3 + countWhile isSpaceChar r)
  | _ => none

/-- The decimal body of pattern 1: a digit, a run of digits and commas, a
dot, then one or two digits (greedy). -/
def numBody1 (s : List Char) : Option Nat :=
  match s with
  | c :: r =>
    if c.isDigit then
      let k := countWhile isDigitComma r
      match r.drop k with
      | '.' :: r3 =>
        let d := countWhile isDigitChar r3
        if d == 0 then none else some (1 + k + 1 + min d 2)
      | _ => none
    else none
  | [] => none

/-- Pattern 1: currency marker before a decimal amount. -/
def pat1 (prev : Option Char) (s : List Char) : Option Nat :=
  (curLead prev s).bind (fun L => (numBody1 (s.drop L)).map (fun b => L + b))

/-- Pattern 2: a decimal amount followed by a currency marker. The one-or-two
fraction digits are matched greedily, retrying with one digit when the tail
fails after two. -/
def pat2 (_prev : Option Char) (s : List Char) : Option Nat :=
  match s with
  | c :: r =>
    if c.isDigit then
      let k := countWhile isDigitComma r
      match r.drop k with
      | '.' :: r3 =>
        let d := countWhile isDigitChar r3
        if d == 0 then none
        else
          let try2 : Option Nat :=
            if 2 ≤ d then
              (curTail true (r3.drop 2)).map (fun t => 1 + k + 1 + 2 + t)
            else none
          match try2 with
          | some L => some L
          | none => (curTail true (r3.drop 1)).map (fun t => 1 + k + 1 + 1 + t)
      | _ => none
    else none
  | [] => none

/-- The backtracking trailing boundary of pattern 3: starting from the
longest run of digits and commas, shorten until the word boundary holds.
`revRun` is the reversed run still under consideration; `rest` the
characters after it. Returns how many run characters are consumed. -/
def backBoundary (c0 : Char) (revRun : List Char) (rest : List Char) : Option Nat :=
  match revRun with
  | [] =>
    if isBoundary (some c0) rest.head? then some 0 else none
  | c :: rr =>
    if isBoundary (some c) rest.head? then some (rr.length + 1)
    else backBoundary c0 rr (c :: rest)

/-- Pattern 3: currency marker before an integer amount, ending at a word
boundary. -/
def pat3 (prev : Option Char) (s : List Char) : Option Nat :=
  (curLead prev s).bind (fun L =>
    match s.drop L with
    | c :: r =>
      if c.isDigit then
        let k := countWhile isDigitComma r
        (backBoundary c ((r.take k).reverse) (r.drop k)).map (fun j => L + 1 + j)
      else none
    | [] => none)

/-- Pattern 4: after a word boundary, an integer amount followed by a
currency marker. -/
def pat4 (prev : Option Char) (s : List Char) : Option Nat :=
  match s with
  | c :: r =>
    if c.isDigit && !(match prev with | some p => isWordChar p | none => false) then
      let k := countWhile isDigitComma r
      let lastC := if k == 0 then c else (r.take k).getLastD c
      (curTail (isWordChar lastC) (r.drop k)).map (fun t => 1 + k + t)
    else none
  | [] => none

/-- Pattern 5: after a word boundary, digits with an optional fraction, then
optional whitespace and a percent sign. -/
def pat5 (prev : Option Char) (s : List Char) : Option Nat :=
  match s with
  | c :: r =>
    if c.isDigit && !(match prev with | some p => isWordChar p | none => false) then
      let k := countWhile isDigitComma r
      let r2 := r.drop k
      let dotLen := match r2 with | '.' :: _ => 1 | _ => 0
      let r3 := r2.drop dotLen
      let d := countWhile isDigitChar r3
      let r4 := r3.drop d
      let sp := countWhile isSpaceChar r4
      match r4.drop sp with
      | '%' :: _ => some (1 + k + dotLen + d + sp + 1)
      | _ => none
    else none
  | [] => none

/-- `re.sub` for one pattern: scan left to right over the original
characters, mask the digits of each leftmost non-empty match and continue
after it. The fuel argument is the remaining length bound, which keeps the
recursion structural. -/
def substFuel (m : Option Char → List Char → Option Nat) :
    Nat → Option Char → List Char → List Char
  | 0, _, s => s
  | _ + 1, _, [] => []
  | fuel + 1, prev, c :: rest =>
    match m prev (c :: rest) with
    | some (n + 1) =>
      let chunk := (c :: rest).take (n + 1)
      chunk.map maskChar ++
        substFuel m fuel (some (chunk.getLastD c)) ((c :: rest).drop (n + 1))
    | _ => c :: substFuel m fuel (some c) rest

def runSub (m : Option Char → List Char → Option Nat) (s : List Char) : List Char :=
  substFuel m s.length none s

/-- report._mask_numeric_strings: the five substitutions in order. -/
def mask_numeric_strings (s : String) : String :=
  ⟨runSub pat5 (runSub pat4 (runSub pat3 (runSub pat2 (runSub pat1 s.data))))⟩

/-- Per-character relation between an input and its masked output: the
character is unchanged, or it was a digit and became X. -/
def charMasked (a b : Char) : Prop := b = a ∨ (a.isDigit = true ∧ b = 'X')

-- ## Spec-side formulations for compute_income_sources

/-- Sum of amounts over positive-amount records with the exact category. -/
def specBucket (txs : List CatTx) (c : String) : ℚ :=
  ((txs.filter (fun t => t.category == c && amtPos t.tx.amount)).map
    (fun t => amtVal t.tx.amount)).sum

/-- Sum of positive amounts whose category does not start with Income. -/
def specOther (txs : List CatTx) : ℚ :=
  ((txs.filter (fun t => !(strStarts t.category "Income") && amtPos t.tx.amount)).map
    (fun t => amtVal t.tx.amount)).sum

-- ## Concrete fixtures used by the claim theorems

/-- A positive-amount record whose iban is not in any configured set and
whose merchant matches no keyword. -/
def txC1 : UnifiedTx :=
  ⟨some "2024-01-05", some 5, "EUR", "", "ACME CORP", "LT-OTHER", none, "", "Swedbank"⟩

/-- An employers group that lists ibans but no keywords. -/
def empGroupC1 : EmployerGroup := ⟨[], ["LT-EMP-1"]⟩

def cfgC1 : Config := ⟨"Miscellaneous", [], [], [empGroupC1], 20, [], "", []⟩

/-- A negative-amount record matching both an investments keyword and an
expense-categories keyword. -/
def txC2 : UnifiedTx :=
  ⟨some "2024-01-06", some (mkRat (-31) 2), "EUR", "", "VANGUARD SUPERMARKET", "", none, "", "Revolut"⟩

def cfgC2 : Config :=
  ⟨"Miscellaneous", ["VANGUARD"], [], [], 20, [], "",
   [("Groceries", ["SUPERMARKET"])]⟩

def cfgC5 : Config := ⟨"Miscellaneous", [], [], [], 20, ["LT-STUDENT"], "", []⟩

def txC5of (q : ℚ) (ib : String) : UnifiedTx :=
  ⟨some "2024-01-07", some q, "EUR", "", "", ib, none, "", "Swedbank"⟩

/-- Records identical except for the sign of the amount. -/
def txC4pos : UnifiedTx :=
  ⟨some "2024-01-08", some 30, "EUR", "d", "Shop", "", none, "", "Revolut"⟩

def txC4neg : UnifiedTx :=
  ⟨some "2024-01-08", some (-30), "EUR", "d", "Shop", "", none, "", "Revolut"⟩

def txC10 : UnifiedTx :=
  ⟨some "2024-01-09", some (-7), "EUR", "d", "ANY MERCHANT", "", none, "", "Revolut"⟩

def cfgC10 : Config := ⟨"Miscellaneous", [""], [], [], 20, [], "", [("Stuff", [""])]⟩

/-- A chunk with no bank-identifying column at all. -/
def chC3 : RawChunk := ⟨["foo", "bar"], [[some "1", none], [some "2", some "x"]]⟩

/-- A Swedbank-shaped chunk with a D/K marker column. -/
def chC7 : RawChunk :=
  ⟨["Data", "Suma", "D/K"],
   [[some "2024-01-02", some "12,5", some "D"],
    [some "2024-01-03", some "3", some "??"]]⟩

/-- A Swedbank-shaped chunk without a marker column. -/
def chC7b : RawChunk := ⟨["Suma"], [[some "7"]]⟩

/-- A chunk with no recognized source columns at all. -/
def chC6 : RawChunk := ⟨["Foo"], [[some "x"]]⟩

/-- A partially-normalized row whose nullable fields all fail to parse. -/
def preC6 : PreTx :=
  ⟨some "garbage", AmtCell.raw "abc", none, none, none, none, some "xyz", none⟩

-- # Theorems
-- ## Helper lemmas about the categorization steps

theorem hasSub_nil (s : List Char) : hasSub [] s = true := by
  cases s <;> simp [hasSub, matchesAt]

theorem containsCI_empty_kw (text : String) : containsCI text "" = true := by
  unfold containsCI
  show hasSub [] (strUpper text).data = true
  exact hasSub_nil _

theorem contains_any_of_empty_mem (text : String) (kws : List String)
    (h : "" ∈ kws) : contains_any text kws = true := by
  unfold contains_any
  rw [List.any_eq_true]
  exact ⟨"", h, containsCI_empty_kw text⟩

theorem employersStep_eq (groups : List EmployerGroup) (t : UnifiedTx) (c : String) :
    employersStep groups t c =
      if groups.any (fun g => empMask g t) then "Income:Employer" else c := by
  induction groups generalizing c with
  | nil => rfl
  | cons g gs ih =>
    have h1 : employersStep (g :: gs) t c
        = employersStep gs t (if empMask g t then "Income:Employer" else c) := rfl
    rw [h1, ih]
    cases h : empMask g t <;>
      cases ha : gs.any (fun g => empMask g t) <;>
        simp [h, ha, List.any_cons]

theorem empMask_eq (g : EmployerGroup) (t : UnifiedTx) :
    empMask g t = (amtPos t.amount &&
      ((g.keywords.isEmpty || contains_any t.merchant g.keywords) ||
        g.ibans.contains t.iban)) := by
  rcases g with ⟨kws, ibs⟩
  unfold empMask
  cases kws <;> cases ibs <;> cases h : amtPos t.amount <;> simp [h]

theorem studentsMask_eq (cfg : Config) (t : UnifiedTx) :
    studentsMask cfg t = (amtPos t.amount &&
      (modZero t.amount cfg.students_multiples_of ||
        cfg.students_ibans.contains t.iban)) := by
  unfold studentsMask
  cases hs : cfg.students_ibans <;> cases h : amtPos t.amount <;> simp [hs, h]

theorem categoriesStep_eq (cats : List (String × List String)) (t : UnifiedTx) (c : String) :
    categoriesStep cats t c =
      ((cats.filter (fun e => catEntryMask t e.2)).getLast?).elim c (fun e => e.1) := by
  induction cats using List.reverseRecOn with
  | nil => rfl
  | append_singleton ds e ih =>
    have h1 : categoriesStep (ds ++ [e]) t c
        = if catEntryMask t e.2 then e.1 else categoriesStep ds t c := by
      simp [categoriesStep, List.foldl_append]
    rw [h1, ih]
    cases h : catEntryMask t e.2 <;>
      simp [List.filter_append, h, List.getLast?_concat]

-- ## C1

/-- Claim C1 (counterexample): an employers group that lists ibans but no
keywords matches a positive-amount record whose iban is outside the set and
whose merchant matches no keyword, so the record is assigned Income:Employer
although the claim says it must not be. -/
theorem claim_C1_counterexample :
    amtPos txC1.amount = true ∧
    contains_any txC1.merchant empGroupC1.keywords = false ∧
    empGroupC1.ibans.contains txC1.iban = false ∧
    employersStep [empGroupC1] txC1 "Miscellaneous" = "Income:Employer" ∧
    categorizeRecord cfgC1 txC1 = "Income:Employer" := by
  refine ⟨by decide, by decide, by decide, by decide, ?_⟩
  have h5 : modZero (some (5 : ℚ)) 20 = false := by
    simp only [modZero]
    norm_num [pyMod]
  have hmask : studentsMask cfgC1 txC1 = false := by
    rw [studentsMask_eq]
    show (amtPos (some (5 : ℚ)) &&
      (modZero (some (5 : ℚ)) 20 || List.contains [] txC1.iban)) = false
    rw [h5]
    decide
  show studentsStep cfgC1 txC1
      (employersStep [empGroupC1] txC1 (investStep cfgC1 txC1 "Miscellaneous"))
      = "Income:Employer"
  unfold studentsStep
  rw [hmask]
  decide

/-- Claim C1 (amended): a record is assigned Income:Employer by the
employers step exactly when some group matches it, groups applying in list
order (all writing the same label); one group matches exactly when the
amount is strictly positive AND (the keyword list is empty, or the merchant
contains a keyword, or the iban is in the iban set) — an empty keyword list
acts as a wildcard rather than restricting the match to the iban set. -/
theorem claim_C1_amended (groups : List EmployerGroup) (g : EmployerGroup)
    (t : UnifiedTx) (c : String) :
    employersStep groups t c =
      (if groups.any (fun g => empMask g t) then "Income:Employer" else c) ∧
    empMask g t = (amtPos t.amount &&
      ((g.keywords.isEmpty || contains_any t.merchant g.keywords) ||
        g.ibans.contains t.iban)) :=
  ⟨employersStep_eq groups t c, empMask_eq g t⟩

-- ## C2

/-- Claim C2: categorize_transactions is the fixed cascade default,
investments, employers, students, cash students, categories, each stage
overwriting on match; a record matching the investments rule and at least
one categories entry ends with the label of the last matching categories
entry, not Investment. -/
theorem claim_C2_cascade (cfg : Config) (t : UnifiedTx) (e : String × List String)
    (_hinv : investMask cfg t = true)
    (hlast : (cfg.categories.filter (fun x => catEntryMask t x.2)).getLast? = some e)
    (hne : e.1 ≠ "Investment") :
    categorizeRecord cfg t =
      categoriesStep cfg.categories t
        (cashStep cfg t (studentsStep cfg t
          (employersStep cfg.employers t
            (investStep cfg t cfg.unknown_category)))) ∧
    categorizeRecord cfg t = e.1 ∧
    categorizeRecord cfg t ≠ "Investment" := by
  have h2 : categorizeRecord cfg t = e.1 := by
    unfold categorizeRecord
    rw [categoriesStep_eq, hlast]
    rfl
  exact ⟨rfl, h2, by rw [h2]; exact hne⟩

/-- Witness for claim C2 at a concrete record matching both the
investments keyword and a categories keyword. -/
theorem claim_C2_cascade_witness :
    investMask cfgC2 txC2 = true ∧ categorizeRecord cfgC2 txC2 = "Groceries" :=
  ⟨by decide,
    (claim_C2_cascade cfgC2 txC2 ("Groceries", ["SUPERMARKET"])
      (by decide) (by decide) (by decide)).2.1⟩

-- ## C5

/-- Claim C5: the students mask holds exactly when the amount is strictly
positive and (amount mod multiples_of is zero or the iban is in the set);
concrete instances: amount 40 with the student iban, amount 41 with the
student iban (iban branch needs no divisibility), amount 41 with an unknown
iban stays Miscellaneous, and amounts 0 and -40 never match even though -40
is divisible and the iban is in the set. -/
theorem claim_C5_students :
    (∀ (cfg : Config) (t : UnifiedTx),
      studentsMask cfg t = (amtPos t.amount &&
        (modZero t.amount cfg.students_multiples_of ||
          cfg.students_ibans.contains t.iban))) ∧
    (∀ (cfg : Config) (t : UnifiedTx) (c : String),
      studentsStep cfg t c = if studentsMask cfg t then "Income:Students" else c) ∧
    modZero (some (40 : ℚ)) 20 = true ∧
    modZero (some (41 : ℚ)) 20 = false ∧
    categorizeRecord cfgC5 (txC5of 40 "LT-STUDENT") = "Income:Students" ∧
    categorizeRecord cfgC5 (txC5of 41 "LT-STUDENT") = "Income:Students" ∧
    categorizeRecord cfgC5 (txC5of 41 "LT-NOPE") = "Miscellaneous" ∧
    categorizeRecord cfgC5 (txC5of 0 "LT-STUDENT") = "Miscellaneous" ∧
    categorizeRecord cfgC5 (txC5of (-40) "LT-STUDENT") = "Miscellaneous" := by
  have h40 : modZero (some (40 : ℚ)) 20 = true := by
    simp only [modZero]
    norm_num [pyMod]
  have h41 : modZero (some (41 : ℚ)) 20 = false := by
    simp only [modZero]
    norm_num [pyMod]
  have step : ∀ (q : ℚ) (ib : String) (b : Bool),
      studentsMask cfgC5 (txC5of q ib) = b →
      categorizeRecord cfgC5 (txC5of q ib) =
        (if b then "Income:Students" else "Miscellaneous") := by
    intro q ib b hb
    show studentsStep cfgC5 (txC5of q ib)
        (employersStep [] (txC5of q ib) (investStep cfgC5 (txC5of q ib) "Miscellaneous"))
        = (if b then "Income:Students" else "Miscellaneous")
    unfold studentsStep
    rw [hb]
    rfl
  refine ⟨studentsMask_eq, fun _ _ _ => rfl, h40, h41, ?_, ?_, ?_, ?_, ?_⟩
  · exact step 40 "LT-STUDENT" true (by
      rw [studentsMask_eq]
      show (amtPos (some (40 : ℚ)) && (modZero (some (40 : ℚ)) 20 || true)) = true
      rw [Bool.or_true, Bool.and_true]
      decide)
  · exact step 41 "LT-STUDENT" true (by
      rw [studentsMask_eq]
      show (amtPos (some (41 : ℚ)) && (modZero (some (41 : ℚ)) 20 || true)) = true
      rw [Bool.or_true, Bool.and_true]
      decide)
  · exact step 41 "LT-NOPE" false (by
      rw [studentsMask_eq]
      show (amtPos (some (41 : ℚ)) && (modZero (some (41 : ℚ)) 20 || false)) = false
      rw [h41]
      decide)
  · exact step 0 "LT-STUDENT" false (by
      rw [studentsMask_eq]
      show ((false : Bool) && (modZero (some (0 : ℚ)) 20 || true)) = false
      rw [Bool.false_and])
  · exact step (-40) "LT-STUDENT" false (by
      rw [studentsMask_eq]
      show ((false : Bool) && (modZero (some (-40 : ℚ)) 20 || true)) = false
      rw [Bool.false_and])

-- ## C10

/-- Claim C10: the empty keyword is a substring of every text, so an
investments keyword list containing the empty string assigns Investment to
every record regardless of sign, and a categories entry listing the empty
string matches every negative-amount record and assigns its label at that
stage. -/
theorem claim_C10_empty_keyword (cfg : Config) (t : UnifiedTx) (c lbl : String)
    (kws : List String) :
    ("" ∈ cfg.investments_keywords → investStep cfg t c = "Investment") ∧
    ("" ∈ kws → contains_any t.merchant kws = true) ∧
    ("" ∈ kws → amtNeg t.amount = true →
      catEntryMask t kws = true ∧ categoriesStep [(lbl, kws)] t c = lbl) := by
  refine ⟨?_, fun h => contains_any_of_empty_mem t.merchant kws h, ?_⟩
  · intro h
    unfold investStep investMask
    rw [contains_any_of_empty_mem t.merchant _ h]
    simp
  · intro h hneg
    have hm : catEntryMask t kws = true := by
      unfold catEntryMask
      rw [hneg, contains_any_of_empty_mem t.merchant _ h]
      simp
    refine ⟨hm, ?_⟩
    unfold categoriesStep
    simp [hm]

/-- Witness for claim C10 at a concrete negative-amount record and
empty-string keyword configuration. -/
theorem claim_C10_empty_keyword_witness :
    investStep cfgC10 txC10 "Miscellaneous" = "Investment" ∧
    catEntryMask txC10 [""] = true ∧
    categoriesStep [("Stuff", [""])] txC10 "Miscellaneous" = "Stuff" := by
  have h := claim_C10_empty_keyword cfgC10 txC10 "Miscellaneous" "Stuff" [""]
  exact ⟨h.1 (by decide), (h.2.2 (by decide) (by decide)).1,
    (h.2.2 (by decide) (by decide)).2⟩


-- ## Cleaning helpers (C4)

theorem keepFirsts_nil : keepFirsts [] = [] := by
  simp [keepFirsts]

theorem keepFirsts_cons (t : UnifiedTx) (ts : List UnifiedTx) :
    keepFirsts (t :: ts) =
      t :: keepFirsts (ts.filter (fun u => !(cleanKey u == cleanKey t))) := by
  rw [keepFirsts]

theorem dedupeFirst_cons (t : UnifiedTx) (ts : List UnifiedTx)
    (seen : List (Option String × ℚ × String × String)) :
    dedupeFirst (t :: ts) seen =
      if seen.contains (cleanKey t) then dedupeFirst ts seen
      else t :: dedupeFirst ts (cleanKey t :: seen) := rfl

theorem dedupeFirst_eq (l : List UnifiedTx)
    (seen : List (Option String × ℚ × String × String)) :
    dedupeFirst l seen =
      keepFirsts (l.filter (fun u => !(seen.contains (cleanKey u)))) := by
  induction l generalizing seen with
  | nil => simp [dedupeFirst, keepFirsts_nil]
  | cons t ts ih =>
    cases h : seen.contains (cleanKey t) with
    | true =>
      rw [dedupeFirst_cons, if_pos h, ih]
      have hfil : (t :: ts).filter (fun u => !(seen.contains (cleanKey u)))
          = ts.filter (fun u => !(seen.contains (cleanKey u))) := by
        rw [List.filter_cons]
        simp only [h, Bool.not_true]
        rw [if_neg Bool.false_ne_true]
      rw [hfil]
    | false =>
      rw [dedupeFirst_cons, if_neg (by rw [h]; exact Bool.false_ne_true), ih]
      have hfil : (t :: ts).filter (fun u => !(seen.contains (cleanKey u)))
          = t :: ts.filter (fun u => !(seen.contains (cleanKey u))) := by
        rw [List.filter_cons]
        simp only [h, Bool.not_false]
        rw [if_pos trivial]
      have hpt : ts.filter (fun u => !((cleanKey t :: seen).contains (cleanKey u)))
          = (ts.filter (fun u => !(seen.contains (cleanKey u)))).filter
              (fun u => !(cleanKey u == cleanKey t)) := by
        rw [List.filter_filter]
        apply List.filter_congr
        intro u _
        simp only [List.contains_cons, Bool.not_or]
      rw [hfil, keepFirsts_cons, ← hpt]

-- ## C4

/-- Claim C4: clean_transactions keeps exactly the null-free records and,
of records sharing a dedup key (date, absolute amount, lowercased trimmed
merchant, bank), only the first in input order, preserving order; two
records differing only in amount sign collide on the key and the second is
dropped. -/
theorem claim_C4_cleaning :
    (∀ txs : List UnifiedTx,
      clean_transactions txs = keepFirsts (txs.filter rowKept)) ∧
    cleanKey txC4pos = cleanKey txC4neg ∧
    clean_transactions [txC4pos, txC4neg] = [txC4pos] := by
  refine ⟨?_, by decide, by decide⟩
  intro txs
  unfold clean_transactions
  rw [dedupeFirst_eq]
  congr 1
  rw [List.filter_eq_self]
  intro u _
  rfl

-- ## C8

theorem compute_income_sources_eq (txs : List CatTx) :
    compute_income_sources txs =
      [("Employer", specBucket txs "Income:Employer"),
       ("Students", specBucket txs "Income:Students"),
       ("Students:Cash", specBucket txs "Income:Students:Cash")] ++
      (if incomeEps < |specOther txs| then [("Other", specOther txs)] else []) := by
  simp only [compute_income_sources, List.filter_filter]
  rfl

/-- Claim C8: compute_income_sources always carries the Employer,
Students and Students:Cash keys with the sums of positive amounts over the
exact categories, and carries Other (the positive sum over categories not
starting with Income) exactly when its absolute value exceeds the 1e-9
epsilon. -/
theorem claim_C8_income_sources (txs : List CatTx) :
    (compute_income_sources txs).lookup "Employer"
      = some (specBucket txs "Income:Employer") ∧
    (compute_income_sources txs).lookup "Students"
      = some (specBucket txs "Income:Students") ∧
    (compute_income_sources txs).lookup "Students:Cash"
      = some (specBucket txs "Income:Students:Cash") ∧
    (compute_income_sources txs).lookup "Other"
      = (if incomeEps < |specOther txs| then some (specOther txs) else none) := by
  rw [compute_income_sources_eq]
  refine ⟨rfl, rfl, rfl, ?_⟩
  by_cases hc : incomeEps < |specOther txs|
  · rw [if_pos hc, if_pos hc]
    rfl
  · rw [if_neg hc, if_neg hc]
    rfl


-- ## Masking lemmas (C9)

theorem charMasked_maskChar (c : Char) : charMasked c (maskChar c) := by
  unfold charMasked maskChar
  by_cases h : c.isDigit = true
  · exact Or.inr ⟨h, by rw [if_pos h]⟩
  · exact Or.inl (by rw [if_neg h])

theorem forall2_map_maskChar (l : List Char) :
    List.Forall₂ charMasked l (l.map maskChar) := by
  induction l with
  | nil => exact List.Forall₂.nil
  | cons c cs ih => exact List.Forall₂.cons (charMasked_maskChar c) ih

theorem forall2_charMasked_refl (l : List Char) : List.Forall₂ charMasked l l := by
  induction l with
  | nil => exact List.Forall₂.nil
  | cons c cs ih => exact List.Forall₂.cons (Or.inl rfl) ih

theorem charMasked_trans {a b c : Char} (h1 : charMasked a b)
    (h2 : charMasked b c) : charMasked a c := by
  rcases h1 with h1 | ⟨hd, hx⟩
  · rcases h2 with h2 | ⟨hd2, hx2⟩
    · exact Or.inl (h2.trans h1)
    · exact Or.inr ⟨h1 ▸ hd2, hx2⟩
  · rcases h2 with h2 | ⟨hd2, hx2⟩
    · exact Or.inr ⟨hd, h2.trans hx⟩
    · exact Or.inr ⟨hd, hx2⟩

theorem forall2_charMasked_trans {a b c : List Char}
    (h1 : List.Forall₂ charMasked a b) (h2 : List.Forall₂ charMasked b c) :
    List.Forall₂ charMasked a c := by
  induction h1 generalizing c with
  | nil => cases h2; exact List.Forall₂.nil
  | cons hh ht ih =>
    cases h2 with
    | cons hh2 ht2 => exact List.Forall₂.cons (charMasked_trans hh hh2) (ih ht2)

theorem substFuel_masked (m : Option Char → List Char → Option Nat) :
    ∀ (fuel : Nat) (prev : Option Char) (s : List Char),
    List.Forall₂ charMasked s (substFuel m fuel prev s) := by
  intro fuel
  induction fuel with
  | zero => intro prev s; exact forall2_charMasked_refl s
  | succ fuel ih =>
    intro prev s
    cases s with
    | nil => exact List.Forall₂.nil
    | cons c rest =>
      simp only [substFuel]
      cases hm : m prev (c :: rest) with
      | none => exact List.Forall₂.cons (Or.inl rfl) (ih (some c) rest)
      | some n =>
        cases n with
        | zero => exact List.Forall₂.cons (Or.inl rfl) (ih (some c) rest)
        | succ k =>
          have h2 : List.Forall₂ charMasked
              ((c :: rest).take (k + 1) ++ (c :: rest).drop (k + 1))
              ((((c :: rest).take (k + 1)).map maskChar) ++
                substFuel m fuel (some (((c :: rest).take (k + 1)).getLastD c))
                  ((c :: rest).drop (k + 1))) :=
            List.rel_append
              (forall2_map_maskChar ((c :: rest).take (k + 1)))
              (ih (some (((c :: rest).take (k + 1)).getLastD c))
                ((c :: rest).drop (k + 1)))
          rw [List.take_append_drop] at h2
          show List.Forall₂ charMasked (c :: rest)
            ((((c :: rest).take (k + 1)).map maskChar) ++
              substFuel m fuel (some (((c :: rest).take (k + 1)).getLastD c))
                ((c :: rest).drop (k + 1)))
          exact h2

theorem runSub_masked (m : Option Char → List Char → Option Nat)
    (s : List Char) : List.Forall₂ charMasked s (runSub m s) :=
  substFuel_masked m s.length none s

-- ## C9

/-- Claim C9: presentation-mode masking rewrites 42.50 EUR to XX.XX EUR
and 15% to XX%, and on every input each output character is either the
input character unchanged or an X replacing a digit. -/
theorem claim_C9_masking :
    mask_numeric_strings "42.50 EUR" = "XX.XX EUR" ∧
    mask_numeric_strings "15%" = "XX%" ∧
    (∀ s : String,
      List.Forall₂ charMasked s.data (mask_numeric_strings s).data) := by
  refine ⟨by decide, by decide, ?_⟩
  intro s
  show List.Forall₂ charMasked s.data
    (runSub pat5 (runSub pat4 (runSub pat3 (runSub pat2 (runSub pat1 s.data)))))
  exact forall2_charMasked_trans
    (forall2_charMasked_trans
      (forall2_charMasked_trans
        (forall2_charMasked_trans (runSub_masked pat1 _) (runSub_masked pat2 _))
        (runSub_masked pat3 _))
      (runSub_masked pat4 _))
    (runSub_masked pat5 _)

-- ## Detection lemmas (C3)

theorem foldl_add_count (f : List String → Nat) (l : List (List String)) :
    ∀ init : Nat, l.foldl (fun tot g => tot + f g) init = init + (l.map f).sum := by
  induction l with
  | nil => intro init; simp
  | cons g gs ih => intro init; simp [List.foldl_cons, ih, Nat.add_assoc]

theorem score_eq (ch : RawChunk) (groups : List (List String)) :
    score ch groups = (groups.map (aliasGroupCount ch)).sum := by
  unfold score
  rw [foldl_add_count]
  simp

theorem aliasGroupCount_eq (ch : RawChunk) (g : List String) :
    aliasGroupCount ch g =
      ((g.findSome? (fun a => lastLowerIdx ch.cols a)).map
        (fun i => notnaCount (colVals ch i))).getD 0 := by
  induction g with
  | nil => rfl
  | cons a rest ih =>
    simp only [aliasGroupCount, List.findSome?_cons]
    cases h : lastLowerIdx ch.cols a <;> simp [h, ih]

-- ## C3

/-- Claim C3: the score of a chunk is the sum over alias groups of the
non-null count of the first alias present (zero when none is); the bank
with the higher score wins, ties go to revolut, and a chunk with no
bank-identifying column scores zero for both formats and deterministically
detects as revolut without raising. -/
theorem claim_C3_bank_detection (ch : RawChunk) :
    score ch revolutAliases = (revolutAliases.map (aliasGroupCount ch)).sum ∧
    (∀ g : List String, aliasGroupCount ch g =
      ((g.findSome? (fun a => lastLowerIdx ch.cols a)).map
        (fun i => notnaCount (colVals ch i))).getD 0) ∧
    (score ch swedbankAliases < score ch revolutAliases →
      decide_bank ch = "revolut") ∧
    (score ch revolutAliases < score ch swedbankAliases →
      decide_bank ch = "swedbank") ∧
    (score ch revolutAliases = score ch swedbankAliases →
      decide_bank ch = "revolut") ∧
    ((∀ a ∈ (revolutAliases ++ swedbankAliases).flatten,
        lastLowerIdx ch.cols a = none) →
      score ch revolutAliases = 0 ∧ score ch swedbankAliases = 0 ∧
        decide_bank ch = "revolut") := by
  refine ⟨score_eq ch _, fun g => aliasGroupCount_eq ch g, ?_, ?_, ?_, ?_⟩
  · intro h
    unfold decide_bank
    rw [if_pos (Nat.le_of_lt h)]
  · intro h
    unfold decide_bank
    rw [if_neg (by omega)]
  · intro h
    unfold decide_bank
    rw [if_pos (by omega)]
  · intro h
    have hz : ∀ g ∈ revolutAliases ++ swedbankAliases, aliasGroupCount ch g = 0 := by
      intro g hg
      rw [aliasGroupCount_eq]
      have hn : g.findSome? (fun a => lastLowerIdx ch.cols a) = none := by
        rw [List.findSome?_eq_none_iff]
        intro a ha
        exact h a (List.mem_flatten.mpr ⟨g, hg, ha⟩)
      rw [hn]
      rfl
    have hr : score ch revolutAliases = 0 := by
      rw [score_eq]
      apply List.sum_eq_zero
      intro x hx
      rcases List.mem_map.mp hx with ⟨g, hg, rfl⟩
      exact hz g (List.mem_append_left _ hg)
    have hs : score ch swedbankAliases = 0 := by
      rw [score_eq]
      apply List.sum_eq_zero
      intro x hx
      rcases List.mem_map.mp hx with ⟨g, hg, rfl⟩
      exact hz g (List.mem_append_right _ hg)
    refine ⟨hr, hs, ?_⟩
    unfold decide_bank
    rw [hr, hs]
    rfl

/-- Witness for claim C3 at a concrete chunk with no bank-identifying
column. -/
theorem claim_C3_bank_detection_witness :
    score chC3 revolutAliases = 0 ∧ score chC3 swedbankAliases = 0 ∧
      decide_bank chC3 = "revolut" :=
  (claim_C3_bank_detection chC3).2.2.2.2.2 (by decide)


-- ## Column-presence helpers (C6, C7)

theorem contains_false_findIdx (cols : List String) (name : String)
    (h : cols.contains name = false) :
    cols.findIdx? (fun c => c == name) = none := by
  induction cols with
  | nil => rfl
  | cons a as ih =>
    rw [List.contains_cons] at h
    rcases Bool.or_eq_false_iff.mp h with ⟨h1, h2⟩
    rw [List.findIdx?_cons]
    have ha : (a == name) = false := by
      simp only [beq_eq_false_iff_ne] at h1 ⊢
      exact fun e => h1 e.symm
    simp [ha, ih h2]

theorem cellAt_none (cols : List String) (r : List (Option String)) (name : String)
    (h : cols.contains name = false) : cellAt cols r name = none := by
  unfold cellAt
  rw [contains_false_findIdx cols name h]
  rfl

-- ## Swedbank sign helpers (C7)

theorem swedRow_sign (cols : List String) (r : List (Option String))
    (dcell acell : Option String)
    (hdk : cellAt cols r "dk" = some dcell)
    (ham : cellAt cols r "amount" = some acell) :
    toNumericAmt (swedPreRow cols r).amount
      = (swedAmount (strOfCell acell)).map (fun q => q * dkMult dcell) := by
  unfold swedPreRow
  simp only [hdk, ham]
  cases hsa : swedAmount (strOfCell acell) <;> simp [hsa, toNumericAmt]

theorem swedRow_nosign (cols : List String) (r : List (Option String))
    (hdk : cellAt cols r "dk" = none) :
    toNumericAmt (swedPreRow cols r).amount =
      (match cellAt cols r "amount" with
       | none => none
       | some c => swedAmount (strOfCell c)) := by
  unfold swedPreRow
  simp only [hdk]
  cases ham : cellAt cols r "amount" with
  | none => simp [toNumericAmt]
  | some c => cases hsa : swedAmount (strOfCell c) <;> simp [hsa, toNumericAmt]

-- ## C7

/-- Claim C7: the D/K multiplier is -1 exactly for the trimmed
case-insensitive debit markers D, DEBETAS, DEBIT and +1 for the credit
markers K, KREDITAS, CREDIT and for every unrecognized or missing marker;
when the chunk has both columns each amount is the parsed value times the
multiplier of its marker, and without a marker column the parsed amounts
are kept unchanged. -/
theorem claim_C7_swedbank_sign (ch : RawChunk) (cell : Option String) :
    (dkMult cell =
      (if strTrim (strUpper (strOfCell cell)) == "D" ||
          strTrim (strUpper (strOfCell cell)) == "DEBETAS" ||
          strTrim (strUpper (strOfCell cell)) == "DEBIT"
       then -1 else 1)) ∧
    dkMult (some "D") = -1 ∧ dkMult (some " debetas ") = -1 ∧
    dkMult (some "Debit") = -1 ∧ dkMult (some "K") = 1 ∧
    dkMult (some "kreditas") = 1 ∧ dkMult (some "CREDIT") = 1 ∧
    dkMult (some "GARBAGE") = 1 ∧ dkMult none = 1 ∧
    ((swedCols ch).contains "dk" = false →
      swedSignedAmt ch = swedParsedAmt ch) ∧
    (∀ (r : List (Option String)) (dcell acell : Option String),
      cellAt (swedCols ch) r "dk" = some dcell →
      cellAt (swedCols ch) r "amount" = some acell →
      toNumericAmt (swedPreRow (swedCols ch) r).amount
        = (swedAmount (strOfCell acell)).map (fun q => q * dkMult dcell)) ∧
    (normalize_swedbank ch).map (fun t => t.amount) = swedSignedAmt ch := by
  refine ⟨?_, by decide, by decide, by decide, by decide, by decide, by decide,
    by decide, by decide, ?_, ?_, ?_⟩
  · unfold dkMult
    cases h : (strTrim (strUpper (strOfCell cell)) == "D" ||
        strTrim (strUpper (strOfCell cell)) == "DEBETAS" ||
        strTrim (strUpper (strOfCell cell)) == "DEBIT") <;>
      simp [h]
  · intro h
    unfold swedSignedAmt swedParsedAmt
    apply List.map_congr_left
    intro r _
    rw [swedRow_nosign _ _ (cellAt_none _ _ _ h)]
  · intro r dcell acell hdk ham
    exact swedRow_sign _ _ _ _ hdk ham
  · unfold normalize_swedbank swedSignedAmt
    rw [List.map_map]
    apply List.map_congr_left
    intro r _
    rfl

/-- Witness for claim C7 at a concrete chunk with a debit marker and one
without a marker column. -/
theorem claim_C7_swedbank_sign_witness :
    toNumericAmt (swedPreRow (swedCols chC7)
        [some "2024-01-02", some "12,5", some "D"]).amount
      = (swedAmount (strOfCell (some "12,5"))).map
          (fun q => q * dkMult (some "D")) ∧
    swedSignedAmt chC7b = swedParsedAmt chC7b :=
  ⟨(claim_C7_swedbank_sign chC7 none).2.2.2.2.2.2.2.2.2.2.1
      [some "2024-01-02", some "12,5", some "D"] (some "D") (some "12,5")
      (by decide) (by decide),
    (claim_C7_swedbank_sign chC7b none).2.2.2.2.2.2.2.2.2.1 (by decide)⟩

-- ## C6

/-- Claim C6: normalization is total and uniform: normalize_any_bank
concatenates per-file results, each mapper is schema enforcement applied
row-wise through the one shared ensure_schema function producing the fixed
nine-field record, the bank tag comes from the mapper, missing source
columns default (currency EUR; description, merchant and iban empty), and
unparseable date, amount or balance cells coerce to null instead of
raising. -/
theorem claim_C6_schema (chunks : List RawChunk) (ch : RawChunk) (b : String)
    (p : PreTx) :
    normalize_any_bank chunks = (chunks.map normalize_bank).flatten ∧
    normalize_bank ch = (if decide_bank ch == "revolut" then normalize_revolut ch
      else normalize_swedbank ch) ∧
    normalize_revolut ch
      = ch.rows.map (fun r => ensure_schema "Revolut" (revPreRow (revCols ch) r)) ∧
    normalize_swedbank ch
      = ch.rows.map (fun r => ensure_schema "Swedbank" (swedPreRow (swedCols ch) r)) ∧
    (ensure_schema b p).bank = b ∧
    ((revCols ch).contains "currency" = false →
      ∀ t ∈ normalize_revolut ch, t.currency = "EUR") ∧
    ((revCols ch).contains "description" = false →
      ∀ t ∈ normalize_revolut ch, t.description = "" ∧ t.merchant = "") ∧
    (∀ t ∈ normalize_revolut ch, t.iban = "") ∧
    ((swedCols ch).contains "currency" = false →
      ∀ t ∈ normalize_swedbank ch, t.currency = "EUR") ∧
    ((swedCols ch).contains "description" = false →
      ∀ t ∈ normalize_swedbank ch, t.description = "") ∧
    ((swedCols ch).contains "merchant" = false →
      (swedCols ch).contains "description" = false →
      ∀ t ∈ normalize_swedbank ch, t.merchant = "") ∧
    ((swedCols ch).contains "iban" = false →
      ∀ t ∈ normalize_swedbank ch, t.iban = "") ∧
    (∀ s : String, p.amount = AmtCell.raw s → parseRat s = none →
      (ensure_schema b p).amount = none) ∧
    (∀ ds : String, p.date = some ds → parseDate ds = none →
      (ensure_schema b p).date = none) ∧
    (∀ bs : String, p.balance = some bs → parseRat bs = none →
      (ensure_schema b p).balance = none) := by
  refine ⟨rfl, rfl, rfl, rfl, rfl, ?_, ?_, ?_, ?_, ?_, ?_, ?_, ?_, ?_, ?_⟩
  · intro h t ht
    rcases List.mem_map.mp ht with ⟨r, _, rfl⟩
    show (ensure_schema "Revolut" (revPreRow (revCols ch) r)).currency = "EUR"
    unfold ensure_schema revPreRow
    simp [cellAt_none _ _ _ h, strOfCell]
  · intro h t ht
    rcases List.mem_map.mp ht with ⟨r, _, rfl⟩
    constructor
    · show (ensure_schema "Revolut" (revPreRow (revCols ch) r)).description = ""
      unfold ensure_schema revPreRow
      simp [cellAt_none _ _ _ h, strOfCell]
    · show (ensure_schema "Revolut" (revPreRow (revCols ch) r)).merchant = ""
      unfold ensure_schema revPreRow
      simp [cellAt_none _ _ _ h, strOfCell]
  · intro t ht
    rcases List.mem_map.mp ht with ⟨r, _, rfl⟩
    rfl
  · intro h t ht
    rcases List.mem_map.mp ht with ⟨r, _, rfl⟩
    show (ensure_schema "Swedbank" (swedPreRow (swedCols ch) r)).currency = "EUR"
    unfold ensure_schema swedPreRow
    simp [cellAt_none _ _ _ h, strOfCell]
  · intro h t ht
    rcases List.mem_map.mp ht with ⟨r, _, rfl⟩
    show (ensure_schema "Swedbank" (swedPreRow (swedCols ch) r)).description = ""
    unfold ensure_schema swedPreRow
    simp [cellAt_none _ _ _ h, strOfCell]
  · intro hm hd t ht
    rcases List.mem_map.mp ht with ⟨r, _, rfl⟩
    show (ensure_schema "Swedbank" (swedPreRow (swedCols ch) r)).merchant = ""
    unfold ensure_schema swedPreRow
    simp [cellAt_none _ _ _ hm, cellAt_none _ _ _ hd, strOfCell]
  · intro h t ht
    rcases List.mem_map.mp ht with ⟨r, _, rfl⟩
    show (ensure_schema "Swedbank" (swedPreRow (swedCols ch) r)).iban = ""
    unfold ensure_schema swedPreRow
    simp [cellAt_none _ _ _ h, strOfCell]
  · intro s hs hp
    unfold ensure_schema
    simp [hs, toNumericAmt, hp]
  · intro ds hs hp
    unfold ensure_schema
    simp [hs, hp]
  · intro bs hs hp
    unfold ensure_schema
    simp [hs, hp]

/-- Witness for claim C6 at a chunk with no recognized columns and a row
whose nullable fields all fail to parse. -/
theorem claim_C6_schema_witness :
    (ensure_schema "Revolut" (revPreRow (revCols chC6) [some "x"])).currency
      = "EUR" ∧
    (ensure_schema "Revolut" (revPreRow (revCols chC6) [some "x"])).iban = "" ∧
    (ensure_schema "AnyBank" preC6).bank = "AnyBank" ∧
    (ensure_schema "AnyBank" preC6).amount = none ∧
    (ensure_schema "AnyBank" preC6).date = none ∧
    (ensure_schema "AnyBank" preC6).balance = none := by
  have h := claim_C6_schema [] chC6 "AnyBank" preC6
  have hmem : ensure_schema "Revolut" (revPreRow (revCols chC6) [some "x"])
      ∈ normalize_revolut chC6 := by decide
  exact ⟨h.2.2.2.2.2.1 (by decide) _ hmem,
    h.2.2.2.2.2.2.2.1 _ hmem,
    h.2.2.2.2.1,
    h.2.2.2.2.2.2.2.2.2.2.2.2.1 "abc" rfl (by decide),
    h.2.2.2.2.2.2.2.2.2.2.2.2.2.1 "garbage" rfl (by decide),
    h.2.2.2.2.2.2.2.2.2.2.2.2.2.2 "xyz" rfl (by decide)⟩
